import Mathlib

set_option autoImplicit false

namespace SlackCompare

/-- A conversation record as returned by `conversations_list`.  Slack channel
ids are opaque tokens in the source; they are modelled as `Nat`. -/
structure Channel where
  id : Nat
  name : String
  is_private : Bool
  is_archived : Bool
  deriving DecidableEq, Repr

/-- Python dict assignment `d[k] = v`: overwrite in place when the key is
already present, append at the end otherwise. -/
def dictInsert (d : List (Nat × String)) (k : Nat) (v : String) :
    List (Nat × String) :=
  if d.any (fun p => p.1 = k) then
    d.map (fun p => if p.1 = k then (k, v) else p)
  else d ++ [(k, v)]

/-- Python `d.keys()`. -/
def dictKeys (d : List (Nat × String)) : List Nat := d.map Prod.fst

/-- Python `d[k]` as a total lookup; `none` corresponds to the `KeyError`
case, which the invariant theorems show never happens in the source's runs. -/
def dictGet? (d : List (Nat × String)) (k : Nat) : Option String :=
  (d.find? (fun p => p.1 = k)).map Prod.snd

/-- Python `d[k]` with the `KeyError` case collapsed to `""`. -/
def dictGet (d : List (Nat × String)) (k : Nat) : String :=
  (dictGet? d k).getD ""

/-- One response of `conversations_list`: a page of channels and the
`response_metadata.next_cursor` field, or a `SlackApiError` code. -/
inductive ListResp where
  | ok (channels : List Channel) (next_cursor : Option String)
  | apiError (error : String)
  deriving DecidableEq, Repr

/-- Python truthiness of the cursor (`if not cursor: break`): `None` and the
empty string are falsy. -/
def cursorTruthy : Option String → Bool
  | none => false
  | some s => !(s == "")

/-- The body of the `for channel in channels` loop of `get_channel_ids`
(source lines 47-53): skip archived channels, record id → name, and count
public and private channels. -/
def processChannels : List Channel → List (Nat × String) → Nat → Nat →
    List (Nat × String) × Nat × Nat
  | [], acc, pub, priv => (acc, pub, priv)
  | c :: rest, acc, pub, priv =>
    if c.is_archived then processChannels rest acc pub priv
    else if c.is_private then
      processChannels rest (dictInsert acc c.id c.name) pub (priv + 1)
    else
      processChannels rest (dictInsert acc c.id c.name) (pub + 1) priv

/-- The state `get_channel_ids` ends in: the accumulated dict, the two
counters, how many responses the loop consumed, and the printed lines. -/
structure EnumResult where
  all_channels : List (Nat × String)
  public_channel_count : Nat
  private_channel_count : Nat
  pages_consumed : Nat
  out : List String
  deriving DecidableEq, Repr

/-- The `while True` pagination loop of `get_channel_ids` (source lines
41-58) together with the `except SlackApiError` handler (lines 59-60).
`pages` is the sequence of responses successive `conversations_list` calls
return; an exhausted sequence stops with the state collected so far (the
source would issue a further request there, so the theorems only use
sequences the loop fully consumes). -/
def enumLoop : List ListResp → List (Nat × String) → Nat → Nat → Nat →
    List String → EnumResult
  | [], acc, pub, priv, n, out => ⟨acc, pub, priv, n, out⟩
  | ListResp.apiError e :: _, acc, pub, priv, n, out =>
    ⟨acc, pub, priv, n + 1, out ++ ["Error fetching channels: " ++ e]⟩
  | ListResp.ok chans cur :: rest, acc, pub, priv, n, out =>
    let r := processChannels chans acc pub priv
    if cursorTruthy cur then enumLoop rest r.1 r.2.1 r.2.2 (n + 1) out
    else ⟨r.1, r.2.1, r.2.2, n + 1, out⟩

/-- `get_channel_ids` (source lines 29-67): final state including the
printed totals. -/
def get_channel_ids_run (pages : List ListResp) : EnumResult :=
  let r := enumLoop pages [] 0 0 0
    ["Fetching all non-archived channel IDs (including private channels)..."]
  { r with out := r.out ++
      ["Total channels found: " ++ toString r.all_channels.length,
       "Public channels: " ++ toString r.public_channel_count,
       "Private channels: " ++ toString r.private_channel_count] }

/-- The value `get_channel_ids` returns: the `{channel_id: channel_name}`
dict of non-archived channels. -/
def get_channel_ids (pages : List ListResp) : List (Nat × String) :=
  (get_channel_ids_run pages).all_channels

/-- One response of `conversations_members`: the member list, or a
`SlackApiError` carrying its error code and the optional parsed
Retry-After header. -/
inductive MembersResp where
  | ok (members : List Nat)
  | err (error : String) (retryAfter : Option Nat)
  deriving DecidableEq, Repr

/-- How one channel left the inner retry loop: membership tested, channel
skipped on a non-rate-limit error, or response sequence exhausted while
still retrying (the source would keep calling there). -/
inductive ChanResult where
  | counted (in1 : Bool) (in2 : Bool)
  | skipped (error : String)
  | exhausted
  deriving DecidableEq, Repr

/-- Trace of the inner retry loop for one channel. -/
structure ChanScan where
  result : ChanResult
  retries : Nat
  retrySleeps : List Nat
  out : List String
  deriving DecidableEq, Repr

/-- `True` exactly for the responses the retry branch of source line 99
handles. -/
def isRateLimit : MembersResp → Bool
  | MembersResp.ok _ => false
  | MembersResp.err e _ => e == "ratelimited"

/-- The wait the source sleeps for a rate-limit response (line 101):
`int(e.response.headers.get('Retry-After', 1))`. -/
def rateLimitWait : MembersResp → Nat
  | MembersResp.ok _ => 1
  | MembersResp.err _ ra => ra.getD 1

/-- The inner `while True` retry loop of `get_users_channel_ids` (source
lines 84-107) for one channel; `resps` is the sequence of responses
successive `conversations_members` calls return for this channel. -/
def scanChannel (u1 u2 cid : Nat) : List MembersResp → ChanScan
  | [] => ⟨ChanResult.exhausted, 0, [], []⟩
  | MembersResp.ok members :: _ =>
    ⟨ChanResult.counted (members.contains u1) (members.contains u2), 0, [], []⟩
  | MembersResp.err e ra :: rest =>
    if e = "ratelimited" then
      let w := ra.getD 1
      let s := scanChannel u1 u2 cid rest
      ⟨s.result, s.retries + 1, w :: s.retrySleeps,
        ("Rate-limited. Retrying after " ++ toString w ++ " seconds...") :: s.out⟩
    else
      ⟨ChanResult.skipped e, 0, [],
        ["Error fetching channel members for channel " ++ toString cid ++ ": " ++ e]⟩

/-- A Python `set` of channel ids, modelled as a duplicate-free list in
insertion order; `setAdd` is `set.add`. -/
def setAdd (s : List Nat) (x : Nat) : List Nat :=
  if x ∈ s then s else s ++ [x]

/-- Python set difference `s - t`. -/
def setDiff (s t : List Nat) : List Nat :=
  s.filter (fun a => !(t.contains a))

/-- The accumulating state of the membership scan: the two sets built by
source lines 89-92 and the printed lines. -/
structure ScanSt where
  user_1_channels : List Nat
  user_2_channels : List Nat
  out : List String
  deriving DecidableEq, Repr

/-- One iteration of the `for channel_id in ...` loop (source lines
83-107). -/
def scanStep (u1 u2 : Nat) (oracle : Nat → List MembersResp) (st : ScanSt)
    (cid : Nat) : ScanSt :=
  let s := scanChannel u1 u2 cid (oracle cid)
  match s.result with
  | ChanResult.counted in1 in2 =>
    { user_1_channels :=
        if in1 then setAdd st.user_1_channels cid else st.user_1_channels
      user_2_channels :=
        if in2 then setAdd st.user_2_channels cid else st.user_2_channels
      out := st.out ++ s.out }
  | _ => { st with out := st.out ++ s.out }

/-- The whole membership loop over the channel list. -/
def scanChannels (u1 u2 : Nat) (oracle : Nat → List MembersResp)
    (chans : List Nat) (st : ScanSt) : ScanSt :=
  chans.foldl (scanStep u1 u2 oracle) st

/-- `get_users_channel_ids` (source lines 69-112): the pair of membership
sets it returns. -/
def get_users_channel_ids (u1 u2 : Nat) (all_channel_ids : List Nat)
    (oracle : Nat → List MembersResp) : List Nat × List Nat :=
  let st := scanChannels u1 u2 oracle all_channel_ids
    ⟨[], [], ["Fetching channel membership for both users..."]⟩
  (st.user_1_channels, st.user_2_channels)

/-- `only_in_user_1 = channels_user_1 - channels_user_2` (source line
144). -/
def only_in_user_1 (s1 s2 : List Nat) : List Nat := setDiff s1 s2

/-- `only_in_user_2 = channels_user_2 - channels_user_1` (source line
146). -/
def only_in_user_2 (s1 s2 : List Nat) : List Nat := setDiff s2 s1

/-- Python `sorted` on a list of strings: a stable sort in the
code-point-lexicographic order, which on Lean strings is the order of
their character data. -/
def sortedNames (l : List String) : List String :=
  List.insertionSort (fun a b => a.data ≤ b.data) l

/-- One per-user block of the report (source lines 149-154 resp. 156-161):
Python `if only_in_user_1:` is the set's nonemptiness. -/
def reportUser (all_channels : List (Nat × String)) (name : String)
    (only : List Nat) : List String :=
  if only.isEmpty then
    ["\nNo channels are exclusive to " ++ name ++ "."]
  else
    ("\nChannels only in " ++ name ++ ":") ::
      (sortedNames (only.map (fun cid => dictGet all_channels cid))).map
        (fun n => "- " ++ n)

/-- One response of `users_lookupByEmail`. -/
inductive LookupResp where
  | ok (id : Nat) (real_name : String)
  | err (error : String)
  deriving DecidableEq, Repr

/-- `get_user_id_by_email` (source lines 12-27): the returned pair and the
printed lines. -/
def get_user_id_by_email (email : String) (resp : LookupResp) :
    Option Nat × Option String × List String :=
  match resp with
  | LookupResp.ok uid uname =>
    (some uid, some uname,
      ["Looking up user ID for email: " ++ email,
       "User ID for " ++ email ++ ": " ++ toString uid])
  | LookupResp.err e =>
    (none, none,
      ["Looking up user ID for email: " ++ email,
       "Error fetching user ID for email " ++ email ++ ": " ++ e])

/-- The remote API's behaviour during one run: the two lookup responses,
the pagination responses, and per channel the member-query responses. -/
structure Env where
  lookup1 : LookupResp
  lookup2 : LookupResp
  pages : List ListResp
  members : Nat → List MembersResp

/-- `compare_user_channels` (source lines 114-161): the sequence of
`print` calls the run makes, one string per call. -/
def compare_user_channels (email_1 email_2 : String) (env : Env) :
    List String :=
  let header := ["Comparing channels for " ++ email_1 ++ " and " ++ email_2 ++ "...\n"]
  let r1 := get_user_id_by_email email_1 env.lookup1
  let r2 := get_user_id_by_email email_2 env.lookup2
  if r1.1.isSome && r2.1.isSome then
    let name1 := r1.2.1.getD ""
    let name2 := r2.2.1.getD ""
    let enum := get_channel_ids_run env.pages
    let st := scanChannels (r1.1.getD 0) (r2.1.getD 0) env.members
      (dictKeys enum.all_channels)
      ⟨[], [], ["Fetching channel membership for both users..."]⟩
    let s1 := st.user_1_channels
    let s2 := st.user_2_channels
    header ++ r1.2.2 ++ r2.2.2 ++ enum.out ++ st.out ++
      [name1 ++ " is part of " ++ toString s1.length ++ " channels.",
       name2 ++ " is part of " ++ toString s2.length ++ " channels.",
       "\nComparing channel memberships..."] ++
      reportUser enum.all_channels name1 (only_in_user_1 s1 s2) ++
      reportUser enum.all_channels name2 (only_in_user_2 s1 s2)
  else
    header ++ r1.2.2 ++ r2.2.2 ++ ["Unable to retrieve user IDs for comparison."]

/-- All channels carried by the responses in `pages`, in order. -/
def pagesChannels : List ListResp → List Channel
  | [] => []
  | ListResp.ok chs _ :: rest => chs ++ pagesChannels rest
  | ListResp.apiError _ :: rest => pagesChannels rest

/-- The dict entries the loop inserts for a page: one per non-archived
channel. -/
def nonArchivedEntries (chs : List Channel) : List (Nat × String) :=
  (chs.filter (fun c => !c.is_archived)).map (fun c => (c.id, c.name))

/-- Number of non-archived public channels in a page. -/
def pubOf (chs : List Channel) : Nat :=
  (chs.filter (fun c => !c.is_archived && !c.is_private)).length

/-- Number of non-archived private channels in a page. -/
def privOf (chs : List Channel) : Nat :=
  (chs.filter (fun c => !c.is_archived && c.is_private)).length

/-- A page whose cursor keeps the loop going. -/
def okTruthyPage : ListResp → Bool
  | ListResp.ok _ cur => cursorTruthy cur
  | ListResp.apiError _ => false

/-- A response sequence on which the pagination loop stops regularly:
every response is a page, every page but the last carries a truthy
cursor, and the last page's cursor is falsy. -/
def completePages : List ListResp → Bool
  | [] => false
  | ListResp.apiError _ :: _ => false
  | [ListResp.ok _ cur] => !(cursorTruthy cur)
  | ListResp.ok _ cur :: p :: rest => cursorTruthy cur && completePages (p :: rest)

lemma dictKeys_append (a b : List (Nat × String)) :
    dictKeys (a ++ b) = dictKeys a ++ dictKeys b :=
  List.map_append _ _ _

lemma dictInsert_fresh (d : List (Nat × String)) (k : Nat) (v : String)
    (h : k ∉ dictKeys d) : dictInsert d k v = d ++ [(k, v)] := by
  have hany : d.any (fun p => p.1 = k) = false := by
    rw [List.any_eq_false]
    intro p hp
    simp only [decide_eq_true_eq]
    intro he
    exact h (List.mem_map.mpr ⟨p, hp, he⟩)
  simp [dictInsert, hany]

lemma pubOf_add_privOf (chs : List Channel) :
    pubOf chs + privOf chs = (nonArchivedEntries chs).length := by
  induction chs with
  | nil => simp [pubOf, privOf, nonArchivedEntries]
  | cons c rest ih =>
    by_cases ha : c.is_archived <;> by_cases hp : c.is_private <;>
      simp [pubOf, privOf, nonArchivedEntries, List.filter_cons, ha, hp] at ih ⊢ <;>
      omega

lemma processChannels_eq (chs : List Channel) :
    ∀ (acc : List (Nat × String)) (pub priv : Nat),
    (chs.map Channel.id).Nodup →
    (∀ c ∈ chs, c.id ∉ dictKeys acc) →
    processChannels chs acc pub priv
      = (acc ++ nonArchivedEntries chs, pub + pubOf chs, priv + privOf chs) := by
  induction chs with
  | nil =>
    intro acc pub priv _ _
    simp [processChannels, nonArchivedEntries, pubOf, privOf]
  | cons c rest ih =>
    intro acc pub priv hnd hfresh
    rw [List.map_cons, List.nodup_cons] at hnd
    have hcid : c.id ∉ dictKeys acc := hfresh c (List.mem_cons_self _ _)
    have hne : ∀ c' ∈ rest, c'.id ≠ c.id := by
      intro c' hc' he
      exact hnd.1 (List.mem_map.mpr ⟨c', hc', he⟩)
    by_cases ha : c.is_archived
    · rw [processChannels, if_pos ha,
        ih acc pub priv hnd.2 (fun c' hc' => hfresh c' (List.mem_cons_of_mem _ hc'))]
      simp [nonArchivedEntries, pubOf, privOf, List.filter_cons, ha]
    · have hfresh' : ∀ c' ∈ rest, c'.id ∉ dictKeys (acc ++ [(c.id, c.name)]) := by
        intro c' hc'
        rw [dictKeys_append]
        simp only [List.mem_append, dictKeys, List.map_cons, List.map_nil,
          List.mem_singleton, not_or]
        exact ⟨fun hm => hfresh c' (List.mem_cons_of_mem _ hc') hm, hne c' hc'⟩
      by_cases hp : c.is_private
      · rw [processChannels, if_neg ha, if_pos hp, dictInsert_fresh acc c.id c.name hcid,
          ih (acc ++ [(c.id, c.name)]) pub (priv + 1) hnd.2 hfresh']
        simp [nonArchivedEntries, pubOf, privOf, List.filter_cons, ha, hp]
        omega
      · rw [processChannels, if_neg ha, if_neg hp, dictInsert_fresh acc c.id c.name hcid,
          ih (acc ++ [(c.id, c.name)]) (pub + 1) priv hnd.2 hfresh']
        simp [nonArchivedEntries, pubOf, privOf, List.filter_cons, ha, hp]
        omega

lemma nonArchivedEntries_append (a b : List Channel) :
    nonArchivedEntries (a ++ b) = nonArchivedEntries a ++ nonArchivedEntries b := by
  simp [nonArchivedEntries, List.filter_append]

lemma pubOf_append (a b : List Channel) : pubOf (a ++ b) = pubOf a + pubOf b := by
  simp [pubOf, List.filter_append]

lemma privOf_append (a b : List Channel) : privOf (a ++ b) = privOf a + privOf b := by
  simp [privOf, List.filter_append]

lemma dictKeys_nonArchivedEntries (chs : List Channel) :
    dictKeys (nonArchivedEntries chs)
      = (chs.filter (fun c => !c.is_archived)).map Channel.id := by
  simp [dictKeys, nonArchivedEntries, List.map_map]

lemma enumLoop_consumed (pages : List ListResp) (h : completePages pages = true) :
    ∀ (acc : List (Nat × String)) (pub priv n : Nat) (out : List String),
    (enumLoop pages acc pub priv n out).pages_consumed = n + pages.length := by
  induction pages with
  | nil => simp [completePages] at h
  | cons p rest ih =>
    intro acc pub priv n out
    cases p with
    | apiError e => simp [completePages] at h
    | ok chs cur =>
      cases rest with
      | nil =>
        have hcur : cursorTruthy cur = false := by
          simpa [completePages] using h
        simp [enumLoop, hcur]
      | cons q rest2 =>
        rw [completePages] at h
        rw [Bool.and_eq_true] at h
        rw [enumLoop]
        simp only [h.1, if_true]
        rw [ih h.2]
        simp only [List.length_cons]
        omega

lemma enumLoop_complete (pages : List ListResp) (h : completePages pages = true) :
    ∀ (acc : List (Nat × String)) (pub priv n : Nat) (out : List String),
    ((pagesChannels pages).map Channel.id).Nodup →
    (∀ c ∈ pagesChannels pages, c.id ∉ dictKeys acc) →
    enumLoop pages acc pub priv n out
      = ⟨acc ++ nonArchivedEntries (pagesChannels pages),
         pub + pubOf (pagesChannels pages),
         priv + privOf (pagesChannels pages),
         n + pages.length, out⟩ := by
  induction pages with
  | nil => simp [completePages] at h
  | cons p rest ih =>
    intro acc pub priv n out hnd hfresh
    cases p with
    | apiError e => simp [completePages] at h
    | ok chs cur =>
      rw [pagesChannels] at hnd hfresh
      rw [List.map_append, List.nodup_append] at hnd
      have hproc := processChannels_eq chs acc pub priv hnd.1
        (fun c hc => hfresh c (List.mem_append_left _ hc))
      cases rest with
      | nil =>
        have hcur : cursorTruthy cur = false := by
          simpa [completePages] using h
        rw [enumLoop]
        simp only [hproc, hcur, if_false, Bool.false_eq_true]
        simp [pagesChannels, nonArchivedEntries, pubOf, privOf]
      | cons q rest2 =>
        rw [completePages] at h
        rw [Bool.and_eq_true] at h
        have hfresh2 : ∀ c ∈ pagesChannels (q :: rest2),
            c.id ∉ dictKeys (acc ++ nonArchivedEntries chs) := by
          intro c hc
          rw [dictKeys_append, dictKeys_nonArchivedEntries]
          rw [List.mem_append]
          push_neg
          refine ⟨fun hm => hfresh c (List.mem_append_right _ hc) hm, fun hm => ?_⟩
          have : c.id ∈ chs.map Channel.id := by
            rcases List.mem_map.mp hm with ⟨c2, hc2, he2⟩
            exact List.mem_map.mpr ⟨c2, (List.filter_sublist _).subset hc2, he2⟩
          exact hnd.2.2 this (List.mem_map.mpr ⟨c, hc, rfl⟩)
        rw [enumLoop]
        simp only [hproc, h.1, if_true]
        rw [ih h.2 (acc ++ nonArchivedEntries chs) (pub + pubOf chs)
          (priv + privOf chs) (n + 1) out hnd.2.1 hfresh2]
        simp only [EnumResult.mk.injEq, pagesChannels, nonArchivedEntries_append,
          pubOf_append, privOf_append, List.append_assoc, List.length_cons]
        refine ⟨trivial, by omega, by omega, by omega, trivial⟩

lemma enumLoop_error (oks : List ListResp)
    (hok : ∀ p ∈ oks, okTruthyPage p = true) :
    ∀ (e : String) (rest : List ListResp) (acc : List (Nat × String))
      (pub priv n : Nat) (out : List String),
    enumLoop (oks ++ ListResp.apiError e :: rest) acc pub priv n out
      = ⟨(enumLoop oks acc pub priv n out).all_channels,
         (enumLoop oks acc pub priv n out).public_channel_count,
         (enumLoop oks acc pub priv n out).private_channel_count,
         (enumLoop oks acc pub priv n out).pages_consumed + 1,
         (enumLoop oks acc pub priv n out).out
           ++ ["Error fetching channels: " ++ e]⟩ := by
  induction oks with
  | nil =>
    intro e rest acc pub priv n out
    simp [enumLoop]
  | cons p oks2 ih =>
    intro e rest acc pub priv n out
    cases p with
    | apiError e2 => exact absurd (hok _ (List.mem_cons_self _ _)) (by simp [okTruthyPage])
    | ok chs cur =>
      have hcur : cursorTruthy cur = true := hok _ (List.mem_cons_self _ _)
      rw [List.cons_append, enumLoop, enumLoop]
      simp only [hcur, if_true]
      exact ih (fun p hp => hok p (List.mem_cons_of_mem _ hp)) e rest _ _ _ _ _

lemma mem_setAdd (s : List Nat) (x a : Nat) : a ∈ setAdd s x ↔ a ∈ s ∨ a = x := by
  unfold setAdd
  split_ifs with h
  · constructor
    · exact Or.inl
    · rintro (h1 | rfl)
      · exact h1
      · exact h
  · simp [List.mem_append]

lemma scanChannel_rate_limits (u1 u2 cid : Nat) (members : List Nat)
    (errs : List MembersResp) (hrl : ∀ r ∈ errs, isRateLimit r = true) :
    scanChannel u1 u2 cid (errs ++ [MembersResp.ok members])
      = ⟨ChanResult.counted (members.contains u1) (members.contains u2),
         errs.length, errs.map rateLimitWait,
         errs.map (fun r => "Rate-limited. Retrying after "
           ++ toString (rateLimitWait r) ++ " seconds...")⟩ := by
  induction errs with
  | nil => simp [scanChannel]
  | cons r rest ih =>
    cases r with
    | ok m => exact absurd (hrl _ (List.mem_cons_self _ _)) (by simp [isRateLimit])
    | err e ra =>
      have he : e = "ratelimited" := by
        simpa [isRateLimit] using hrl _ (List.mem_cons_self _ _)
      have ih2 := ih (fun r hr => hrl r (List.mem_cons_of_mem _ hr))
      simp [scanChannel, he, ih2, rateLimitWait]

lemma mem_scanChannels_user1 (u1 u2 : Nat) (oracle : Nat → List MembersResp) :
    ∀ (chans : List Nat) (st : ScanSt) (a : Nat),
    a ∈ (scanChannels u1 u2 oracle chans st).user_1_channels →
    a ∈ st.user_1_channels ∨ (a ∈ chans ∧
      ∃ b, (scanChannel u1 u2 a (oracle a)).result = ChanResult.counted true b) := by
  intro chans
  induction chans with
  | nil => exact fun st a ha => Or.inl ha
  | cons c rest ih =>
    intro st a ha
    rw [scanChannels, List.foldl_cons] at ha
    rcases ih (scanStep u1 u2 oracle st c) a ha with h1 | h2
    · cases hres : (scanChannel u1 u2 c (oracle c)).result with
      | counted in1 in2 =>
        rw [scanStep] at h1
        simp only [hres] at h1
        cases in1 with
        | true =>
          simp only [if_true] at h1
          rcases (mem_setAdd _ _ _).mp h1 with h3 | rfl
          · exact Or.inl h3
          · exact Or.inr ⟨List.mem_cons_self _ _, in2, hres⟩
        | false =>
          exact Or.inl (by simpa using h1)
      | skipped e =>
        rw [scanStep] at h1
        simp only [hres] at h1
        exact Or.inl h1
      | exhausted =>
        rw [scanStep] at h1
        simp only [hres] at h1
        exact Or.inl h1
    · exact Or.inr ⟨List.mem_cons_of_mem _ h2.1, h2.2⟩

lemma mem_scanChannels_user2 (u1 u2 : Nat) (oracle : Nat → List MembersResp) :
    ∀ (chans : List Nat) (st : ScanSt) (a : Nat),
    a ∈ (scanChannels u1 u2 oracle chans st).user_2_channels →
    a ∈ st.user_2_channels ∨ (a ∈ chans ∧
      ∃ b, (scanChannel u1 u2 a (oracle a)).result = ChanResult.counted b true) := by
  intro chans
  induction chans with
  | nil => exact fun st a ha => Or.inl ha
  | cons c rest ih =>
    intro st a ha
    rw [scanChannels, List.foldl_cons] at ha
    rcases ih (scanStep u1 u2 oracle st c) a ha with h1 | h2
    · cases hres : (scanChannel u1 u2 c (oracle c)).result with
      | counted in1 in2 =>
        rw [scanStep] at h1
        simp only [hres] at h1
        cases in2 with
        | true =>
          simp only [if_true] at h1
          rcases (mem_setAdd _ _ _).mp h1 with h3 | rfl
          · exact Or.inl h3
          · exact Or.inr ⟨List.mem_cons_self _ _, in1, hres⟩
        | false =>
          exact Or.inl (by simpa using h1)
      | skipped e =>
        rw [scanStep] at h1
        simp only [hres] at h1
        exact Or.inl h1
      | exhausted =>
        rw [scanStep] at h1
        simp only [hres] at h1
        exact Or.inl h1
    · exact Or.inr ⟨List.mem_cons_of_mem _ h2.1, h2.2⟩

lemma scanChannels_sets_congr (u1 u2 : Nat) (oracle : Nat → List MembersResp) :
    ∀ (chans : List Nat) (st st' : ScanSt),
    st.user_1_channels = st'.user_1_channels →
    st.user_2_channels = st'.user_2_channels →
    (scanChannels u1 u2 oracle chans st).user_1_channels
        = (scanChannels u1 u2 oracle chans st').user_1_channels ∧
    (scanChannels u1 u2 oracle chans st).user_2_channels
        = (scanChannels u1 u2 oracle chans st').user_2_channels := by
  intro chans
  induction chans with
  | nil => exact fun st st' h1 h2 => ⟨h1, h2⟩
  | cons c rest ih =>
    intro st st' h1 h2
    simp only [scanChannels, List.foldl_cons]
    cases hres : (scanChannel u1 u2 c (oracle c)).result with
    | counted in1 in2 =>
      exact ih _ _ (by simp [scanStep, hres, h1]) (by simp [scanStep, hres, h2])
    | skipped e =>
      exact ih _ _ (by simp [scanStep, hres, h1]) (by simp [scanStep, hres, h2])
    | exhausted =>
      exact ih _ _ (by simp [scanStep, hres, h1]) (by simp [scanStep, hres, h2])

lemma dictGet?_isSome (m : List (Nat × String)) (a : Nat) (h : a ∈ dictKeys m) :
    (dictGet? m a).isSome = true := by
  rcases List.mem_map.mp h with ⟨p, hp, he⟩
  unfold dictGet?
  rw [Option.isSome_map']
  rw [List.find?_isSome]
  exact ⟨p, hp, by simp [he]⟩

lemma get_users_eq (u1 u2 : Nat) (ids : List Nat)
    (oracle : Nat → List MembersResp) :
    get_users_channel_ids u1 u2 ids oracle
      = ((scanChannels u1 u2 oracle ids
            ⟨[], [], ["Fetching channel membership for both users..."]⟩).user_1_channels,
         (scanChannels u1 u2 oracle ids
            ⟨[], [], ["Fetching channel membership for both users..."]⟩).user_2_channels) :=
  rfl

/-- C1: for any two accumulated channel-id sets, the two computed
difference sets `only_in_user_1 = set1 − set2` and
`only_in_user_2 = set2 − set1` are disjoint, and intersection plus the two
differences recover the union. -/
theorem diff_sets_partition (s1 s2 : List Nat) :
    Disjoint (only_in_user_1 s1 s2).toFinset (only_in_user_2 s1 s2).toFinset ∧
      s1.toFinset ∩ s2.toFinset ∪ (only_in_user_1 s1 s2).toFinset
          ∪ (only_in_user_2 s1 s2).toFinset
        = s1.toFinset ∪ s2.toFinset := by
  constructor
  · rw [Finset.disjoint_left]
    intro a h1 h2
    rw [List.mem_toFinset, only_in_user_1, setDiff, List.mem_filter] at h1
    rw [List.mem_toFinset, only_in_user_2, setDiff, List.mem_filter] at h2
    rw [Bool.not_eq_true', ← Bool.not_eq_true, List.elem_iff] at h2
    exact h2.2 h1.1
  · ext a
    simp only [only_in_user_1, only_in_user_2, setDiff, List.mem_toFinset,
      Finset.mem_union, Finset.mem_inter, List.mem_toFinset, List.mem_filter,
      Bool.not_eq_true', ← Bool.not_eq_true, List.elem_iff]
    tauto

/-- C2: a membership query that is rate-limited `n` times and then
succeeds is retried exactly `n` times, sleeping each time the wait the
error response suggests (1 when absent), and the channel is then tested
and counted exactly once — not skipped, not duplicated. -/
theorem rate_limit_retry (u1 u2 cid : Nat) (errs : List MembersResp)
    (members : List Nat) (oracle : Nat → List MembersResp)
    (hrl : ∀ r ∈ errs, isRateLimit r = true)
    (hor : oracle cid = errs ++ [MembersResp.ok members]) :
    (scanChannel u1 u2 cid (oracle cid)).retries = errs.length ∧
    (scanChannel u1 u2 cid (oracle cid)).retrySleeps = errs.map rateLimitWait ∧
    (scanChannel u1 u2 cid (oracle cid)).result
      = ChanResult.counted (members.contains u1) (members.contains u2) ∧
    get_users_channel_ids u1 u2 [cid] oracle
      = (if members.contains u1 then [cid] else [],
         if members.contains u2 then [cid] else []) := by
  have hscan := scanChannel_rate_limits u1 u2 cid members errs hrl
  rw [hor, hscan]
  refine ⟨rfl, rfl, rfl, ?_⟩
  rw [get_users_eq]
  unfold scanChannels
  rw [List.foldl_cons, List.foldl_nil]
  rw [scanStep]
  simp only [hor, hscan]
  cases h1 : members.contains u1 <;> cases h2 : members.contains u2 <;>
    simp [setAdd]

/-- Witness for C2: two rate limits (suggested waits 30 and default 1),
then success; the loop retried twice, slept [30, 1], and counted the
channel once for user 7 only. -/
theorem rate_limit_retry_witness :
    (scanChannel 7 8 5 ((fun _ => [MembersResp.err "ratelimited" (some 30),
        MembersResp.err "ratelimited" none, MembersResp.ok [7]]) 5)).retries = 2 ∧
    (scanChannel 7 8 5 ((fun _ => [MembersResp.err "ratelimited" (some 30),
        MembersResp.err "ratelimited" none, MembersResp.ok [7]]) 5)).retrySleeps
      = [30, 1] ∧
    (scanChannel 7 8 5 ((fun _ => [MembersResp.err "ratelimited" (some 30),
        MembersResp.err "ratelimited" none, MembersResp.ok [7]]) 5)).result
      = ChanResult.counted true false ∧
    get_users_channel_ids 7 8 [5]
        (fun _ => [MembersResp.err "ratelimited" (some 30),
          MembersResp.err "ratelimited" none, MembersResp.ok [7]])
      = ([5], []) :=
  rate_limit_retry 7 8 5
    [MembersResp.err "ratelimited" (some 30), MembersResp.err "ratelimited" none]
    [7]
    (fun _ => [MembersResp.err "ratelimited" (some 30),
      MembersResp.err "ratelimited" none, MembersResp.ok [7]])
    (by decide) rfl

/-- C9: the two membership sets only contain ids drawn from the input
collection; when the input is the dict's key list, every id in either
difference set has a name in the dict, so the reporter's lookup never
fails. -/
theorem membership_sets_within_input (u1 u2 : Nat)
    (oracle : Nat → List MembersResp) :
    (∀ (ids : List Nat) (a : Nat),
        (a ∈ (get_users_channel_ids u1 u2 ids oracle).1 → a ∈ ids) ∧
        (a ∈ (get_users_channel_ids u1 u2 ids oracle).2 → a ∈ ids)) ∧
    ∀ m : List (Nat × String),
      (∀ a ∈ only_in_user_1 (get_users_channel_ids u1 u2 (dictKeys m) oracle).1
          (get_users_channel_ids u1 u2 (dictKeys m) oracle).2,
        (dictGet? m a).isSome = true) ∧
      (∀ a ∈ only_in_user_2 (get_users_channel_ids u1 u2 (dictKeys m) oracle).1
          (get_users_channel_ids u1 u2 (dictKeys m) oracle).2,
        (dictGet? m a).isSome = true) := by
  have key : ∀ (ids : List Nat) (a : Nat),
      (a ∈ (get_users_channel_ids u1 u2 ids oracle).1 → a ∈ ids) ∧
      (a ∈ (get_users_channel_ids u1 u2 ids oracle).2 → a ∈ ids) := by
    intro ids a
    rw [get_users_eq]
    constructor
    · intro ha
      rcases mem_scanChannels_user1 u1 u2 oracle ids _ a ha with h | h
      · exact absurd h (List.not_mem_nil a)
      · exact h.1
    · intro ha
      rcases mem_scanChannels_user2 u1 u2 oracle ids _ a ha with h | h
      · exact absurd h (List.not_mem_nil a)
      · exact h.1
  refine ⟨key, fun m => ⟨fun a ha => ?_, fun a ha => ?_⟩⟩
  · rw [only_in_user_1, setDiff] at ha
    exact dictGet?_isSome m a ((key (dictKeys m) a).1 (List.mem_filter.mp ha).1)
  · rw [only_in_user_2, setDiff] at ha
    exact dictGet?_isSome m a ((key (dictKeys m) a).2 (List.mem_filter.mp ha).1)

lemma scanChannel_skip (u1 u2 cid : Nat) (e : String) (ra : Option Nat)
    (rl : List MembersResp) (he : e ≠ "ratelimited")
    (hrl : ∀ r ∈ rl, isRateLimit r = true) :
    scanChannel u1 u2 cid (rl ++ [MembersResp.err e ra])
      = ⟨ChanResult.skipped e, rl.length, rl.map rateLimitWait,
         (rl.map (fun r => "Rate-limited. Retrying after "
             ++ toString (rateLimitWait r) ++ " seconds..."))
           ++ ["Error fetching channel members for channel "
             ++ toString cid ++ ": " ++ e]⟩ := by
  induction rl with
  | nil => simp [scanChannel, he]
  | cons r rest ih =>
    cases r with
    | ok m => exact absurd (hrl _ (List.mem_cons_self _ _)) (by simp [isRateLimit])
    | err e2 ra2 =>
      have he2 : e2 = "ratelimited" := by
        simpa [isRateLimit] using hrl _ (List.mem_cons_self _ _)
      have ih2 := ih (fun r hr => hrl r (List.mem_cons_of_mem _ hr))
      simp [scanChannel, he2, ih2, rateLimitWait]

/-- C5: a channel whose membership query fails with a non-rate-limit API
error is logged and skipped: it joins neither membership set, and the
scan's outcome over the remaining channels is unchanged — the pass is not
aborted. -/
theorem non_rate_limit_error_skips (u1 u2 cid : Nat) (e : String)
    (ra : Option Nat) (rl : List MembersResp) (rest : List Nat)
    (oracle : Nat → List MembersResp)
    (he : e ≠ "ratelimited")
    (hrl : ∀ r ∈ rl, isRateLimit r = true)
    (hor : oracle cid = rl ++ [MembersResp.err e ra]) :
    (scanChannel u1 u2 cid (oracle cid)).result = ChanResult.skipped e ∧
    ("Error fetching channel members for channel " ++ toString cid ++ ": " ++ e)
        ∈ (scanChannel u1 u2 cid (oracle cid)).out ∧
    cid ∉ (get_users_channel_ids u1 u2 (cid :: rest) oracle).1 ∧
    cid ∉ (get_users_channel_ids u1 u2 (cid :: rest) oracle).2 ∧
    get_users_channel_ids u1 u2 (cid :: rest) oracle
      = get_users_channel_ids u1 u2 rest oracle := by
  have hscan := scanChannel_skip u1 u2 cid e ra rl he hrl
  have hres : (scanChannel u1 u2 cid (oracle cid)).result = ChanResult.skipped e := by
    rw [hor, hscan]
  have hnotc : ∀ st : ScanSt,
      (scanStep u1 u2 oracle st cid).user_1_channels = st.user_1_channels ∧
      (scanStep u1 u2 oracle st cid).user_2_channels = st.user_2_channels := by
    intro st
    constructor <;> simp [scanStep, hres]
  refine ⟨hres, ?_, ?_, ?_, ?_⟩
  · rw [hor, hscan]
    exact List.mem_append_right _ (List.mem_singleton.mpr rfl)
  · rw [get_users_eq]
    intro hmem
    rcases mem_scanChannels_user1 u1 u2 oracle (cid :: rest) _ cid hmem with h | h
    · exact List.not_mem_nil cid h
    · rcases h.2 with ⟨b, hb⟩
      rw [hres] at hb
      exact ChanResult.noConfusion hb
  · rw [get_users_eq]
    intro hmem
    rcases mem_scanChannels_user2 u1 u2 oracle (cid :: rest) _ cid hmem with h | h
    · exact List.not_mem_nil cid h
    · rcases h.2 with ⟨b, hb⟩
      rw [hres] at hb
      exact ChanResult.noConfusion hb
  · rw [get_users_eq, get_users_eq]
    simp only [scanChannels, List.foldl_cons]
    obtain ⟨hc1, hc2⟩ := scanChannels_sets_congr u1 u2 oracle rest
      (scanStep u1 u2 oracle
        ⟨[], [], ["Fetching channel membership for both users..."]⟩ cid)
      ⟨[], [], ["Fetching channel membership for both users..."]⟩
      (hnotc _).1 (hnotc _).2
    rw [scanChannels] at hc1 hc2
    rw [hc1, hc2]
    rfl

/-- Witness for C5: the query for channel 3 fails with `channel_not_found`;
the channel is logged, skipped, and the scan over the remaining channel 4
(whose query succeeds for user 1) is unchanged. -/
theorem non_rate_limit_error_skips_witness :
    (scanChannel 1 2 3 ((fun cid => if cid = 3
        then [MembersResp.err "channel_not_found" none]
        else [MembersResp.ok [1]]) 3)).result
      = ChanResult.skipped "channel_not_found" ∧
    ("Error fetching channel members for channel " ++ toString 3 ++ ": "
        ++ "channel_not_found")
      ∈ (scanChannel 1 2 3 ((fun cid => if cid = 3
          then [MembersResp.err "channel_not_found" none]
          else [MembersResp.ok [1]]) 3)).out ∧
    3 ∉ (get_users_channel_ids 1 2 [3, 4] (fun cid => if cid = 3
        then [MembersResp.err "channel_not_found" none]
        else [MembersResp.ok [1]])).1 ∧
    3 ∉ (get_users_channel_ids 1 2 [3, 4] (fun cid => if cid = 3
        then [MembersResp.err "channel_not_found" none]
        else [MembersResp.ok [1]])).2 ∧
    get_users_channel_ids 1 2 [3, 4] (fun cid => if cid = 3
        then [MembersResp.err "channel_not_found" none]
        else [MembersResp.ok [1]])
      = get_users_channel_ids 1 2 [4] (fun cid => if cid = 3
          then [MembersResp.err "channel_not_found" none]
          else [MembersResp.ok [1]]) :=
  non_rate_limit_error_skips 1 2 3 "channel_not_found" none [] [4]
    (fun cid => if cid = 3 then [MembersResp.err "channel_not_found" none]
      else [MembersResp.ok [1]])
    (by decide) (by intro r hr; exact absurd hr (List.not_mem_nil r)) (by decide)

lemma get_channel_ids_run_all (pages : List ListResp) :
    (get_channel_ids_run pages).all_channels
      = (enumLoop pages [] 0 0 0
          ["Fetching all non-archived channel IDs (including private channels)..."]).all_channels :=
  rfl

lemma get_channel_ids_run_pub (pages : List ListResp) :
    (get_channel_ids_run pages).public_channel_count
      = (enumLoop pages [] 0 0 0
          ["Fetching all non-archived channel IDs (including private channels)..."]).public_channel_count :=
  rfl

lemma get_channel_ids_run_priv (pages : List ListResp) :
    (get_channel_ids_run pages).private_channel_count
      = (enumLoop pages [] 0 0 0
          ["Fetching all non-archived channel IDs (including private channels)..."]).private_channel_count :=
  rfl

lemma get_channel_ids_run_consumed (pages : List ListResp) :
    (get_channel_ids_run pages).pages_consumed
      = (enumLoop pages [] 0 0 0
          ["Fetching all non-archived channel IDs (including private channels)..."]).pages_consumed :=
  rfl

lemma get_channel_ids_run_out (pages : List ListResp) :
    (get_channel_ids_run pages).out
      = (enumLoop pages [] 0 0 0
          ["Fetching all non-archived channel IDs (including private channels)..."]).out
        ++ ["Total channels found: "
             ++ toString (get_channel_ids pages).length,
           "Public channels: "
             ++ toString (get_channel_ids_run pages).public_channel_count,
           "Private channels: "
             ++ toString (get_channel_ids_run pages).private_channel_count] :=
  rfl

lemma get_channel_ids_complete (pages : List ListResp)
    (h : completePages pages = true)
    (hnd : ((pagesChannels pages).map Channel.id).Nodup) :
    get_channel_ids pages = nonArchivedEntries (pagesChannels pages) ∧
    (get_channel_ids_run pages).public_channel_count
      = pubOf (pagesChannels pages) ∧
    (get_channel_ids_run pages).private_channel_count
      = privOf (pagesChannels pages) := by
  have hrun := enumLoop_complete pages h [] 0 0 0
    ["Fetching all non-archived channel IDs (including private channels)..."]
    hnd (fun c _ => List.not_mem_nil c.id)
  refine ⟨?_, ?_, ?_⟩
  · rw [get_channel_ids, get_channel_ids_run_all, hrun]
    simp
  · rw [get_channel_ids_run_pub, hrun]
    simp
  · rw [get_channel_ids_run_priv, hrun]
    simp

/-- A non-archived public channel with id `n`, used for the concrete test
pages. -/
def mkChan (n : Nat) : Channel := ⟨n, "c" ++ toString n, false, false⟩

/-- Three pages of 100, 100 and 50 distinct non-archived channels; only
the last page's `next_cursor` is absent. -/
def pages3 : List ListResp :=
  [ListResp.ok ((List.range 100).map mkChan) (some "cursor1"),
   ListResp.ok ((List.range 100).map (fun k => mkChan (100 + k))) (some "cursor2"),
   ListResp.ok ((List.range 50).map (fun k => mkChan (200 + k))) none]

set_option maxRecDepth 20000 in
/-- C3: when only the last page's cursor is absent or null, the pagination
loop stops after consuming exactly the given pages; on the concrete
3 pages of 100+100+50 distinct non-archived channels the enumerator
returns exactly 250 entries. -/
theorem pagination_consumes_all (pages : List ListResp)
    (h : completePages pages = true) :
    (get_channel_ids_run pages).pages_consumed = pages.length ∧
    (get_channel_ids pages3).length = 250 := by
  constructor
  · rw [get_channel_ids_run_consumed]
    have := enumLoop_consumed pages h [] 0 0 0
      ["Fetching all non-archived channel IDs (including private channels)..."]
    omega
  · decide

set_option maxRecDepth 20000 in
/-- Witness for C3: the three concrete pages are a complete sequence; the
loop consumes all 3 and the mapping has 250 entries. -/
theorem pagination_consumes_all_witness :
    (get_channel_ids_run pages3).pages_consumed = 3 ∧
    (get_channel_ids pages3).length = 250 :=
  pagination_consumes_all pages3 (by decide)

/-- Five active channels (ids 0-4) and two archived ones (ids 5, 6) on a
single page. -/
def page5and2 : List ListResp :=
  [ListResp.ok
    [⟨0, "a0", false, false⟩, ⟨1, "a1", false, false⟩,
     ⟨2, "a2", false, false⟩, ⟨3, "a3", false, false⟩,
     ⟨4, "a4", false, false⟩, ⟨5, "x5", false, true⟩,
     ⟨6, "x6", true, true⟩] none]

/-- C4: channels marked `is_archived` are excluded from the returned
id→name mapping; with 5 active and 2 archived channels the mapping has
exactly 5 entries. -/
theorem archived_channels_excluded (pages : List ListResp)
    (h : completePages pages = true)
    (hnd : ((pagesChannels pages).map Channel.id).Nodup) :
    (∀ c ∈ pagesChannels pages, c.is_archived = true →
        c.id ∉ dictKeys (get_channel_ids pages)) ∧
    (get_channel_ids page5and2).length = 5 := by
  constructor
  · intro c hc ha hmem
    rw [(get_channel_ids_complete pages h hnd).1,
      dictKeys_nonArchivedEntries] at hmem
    rcases List.mem_map.mp hmem with ⟨c2, hc2, he2⟩
    have hc2mem : c2 ∈ pagesChannels pages := (List.filter_sublist _).subset hc2
    have : c2 = c := List.inj_on_of_nodup_map hnd hc2mem hc he2
    subst this
    have := List.of_mem_filter hc2
    rw [ha] at this
    exact absurd this (by simp)
  · decide

/-- Witness for C4: on the concrete one-page listing the archived channels
5 and 6 are absent from the mapping's keys and the mapping has 5
entries. -/
theorem archived_channels_excluded_witness :
    (∀ c ∈ pagesChannels page5and2, c.is_archived = true →
        c.id ∉ dictKeys (get_channel_ids page5and2)) ∧
    (get_channel_ids page5and2).length = 5 :=
  archived_channels_excluded page5and2 (by decide) (by decide)

lemma enumLoop_consumed_truthy (oks : List ListResp)
    (hok : ∀ p ∈ oks, okTruthyPage p = true) :
    ∀ (acc : List (Nat × String)) (pub priv n : Nat) (out : List String),
    (enumLoop oks acc pub priv n out).pages_consumed = n + oks.length := by
  induction oks with
  | nil => intro acc pub priv n out; simp [enumLoop]
  | cons p rest ih =>
    intro acc pub priv n out
    cases p with
    | apiError e =>
      exact absurd (hok _ (List.mem_cons_self _ _)) (by simp [okTruthyPage])
    | ok chs cur =>
      have hcur : cursorTruthy cur = true := hok _ (List.mem_cons_self _ _)
      rw [enumLoop]
      simp only [hcur, if_true]
      rw [ih (fun p hp => hok p (List.mem_cons_of_mem _ hp))]
      simp only [List.length_cons]
      omega

/-- C7: an API error in mid-pagination stops the loop; the enumerator
logs the error and returns the mapping collected from the pages already
consumed, ignoring everything after the error. -/
theorem api_error_partial_result (oks : List ListResp) (e : String)
    (rest : List ListResp)
    (hok : ∀ p ∈ oks, okTruthyPage p = true) :
    get_channel_ids (oks ++ ListResp.apiError e :: rest)
      = (enumLoop oks [] 0 0 0
          ["Fetching all non-archived channel IDs (including private channels)..."]).all_channels ∧
    ("Error fetching channels: " ++ e)
      ∈ (get_channel_ids_run (oks ++ ListResp.apiError e :: rest)).out ∧
    (get_channel_ids_run (oks ++ ListResp.apiError e :: rest)).pages_consumed
      = oks.length + 1 := by
  have herr := enumLoop_error oks hok e rest [] 0 0 0
    ["Fetching all non-archived channel IDs (including private channels)..."]
  refine ⟨?_, ?_, ?_⟩
  · rw [get_channel_ids, get_channel_ids_run_all, herr]
  · rw [get_channel_ids_run_out, herr]
    exact List.mem_append_left _
      (List.mem_append_right _ (List.mem_singleton.mpr rfl))
  · rw [get_channel_ids_run_consumed, herr]
    have := enumLoop_consumed_truthy oks hok [] 0 0 0
      ["Fetching all non-archived channel IDs (including private channels)..."]
    simp only []
    omega

/-- Witness for C7: one good page, then an API error, then a further page
that is never consumed; the error is logged and only the first page's
channel is returned. -/
theorem api_error_partial_result_witness :
    get_channel_ids [ListResp.ok [mkChan 0] (some "cur"),
        ListResp.apiError "fatal_error", ListResp.ok [mkChan 1] none]
      = (enumLoop [ListResp.ok [mkChan 0] (some "cur")] [] 0 0 0
          ["Fetching all non-archived channel IDs (including private channels)..."]).all_channels ∧
    ("Error fetching channels: " ++ "fatal_error")
      ∈ (get_channel_ids_run [ListResp.ok [mkChan 0] (some "cur"),
          ListResp.apiError "fatal_error", ListResp.ok [mkChan 1] none]).out ∧
    (get_channel_ids_run [ListResp.ok [mkChan 0] (some "cur"),
        ListResp.apiError "fatal_error", ListResp.ok [mkChan 1] none]).pages_consumed
      = 2 :=
  api_error_partial_result [ListResp.ok [mkChan 0] (some "cur")] "fatal_error"
    [ListResp.ok [mkChan 1] none] (by decide)

/-- C10: on an error-free complete listing whose channel ids are pairwise
distinct, the reported public count plus private count equals the size of
the returned non-archived mapping. -/
theorem counts_match_mapping (pages : List ListResp)
    (h : completePages pages = true)
    (hnd : ((pagesChannels pages).map Channel.id).Nodup) :
    (get_channel_ids_run pages).public_channel_count
        + (get_channel_ids_run pages).private_channel_count
      = (get_channel_ids pages).length := by
  obtain ⟨h1, h2, h3⟩ := get_channel_ids_complete pages h hnd
  rw [h1, h2, h3, pubOf_add_privOf]

/-- Witness for C10: one public and one private active channel plus one
archived channel; the counters sum to the mapping's 2 entries. -/
theorem counts_match_mapping_witness :
    (get_channel_ids_run [ListResp.ok
        [⟨0, "pub0", false, false⟩, ⟨1, "priv1", true, false⟩,
         ⟨2, "arch2", false, true⟩] none]).public_channel_count
      + (get_channel_ids_run [ListResp.ok
        [⟨0, "pub0", false, false⟩, ⟨1, "priv1", true, false⟩,
         ⟨2, "arch2", false, true⟩] none]).private_channel_count
      = (get_channel_ids [ListResp.ok
        [⟨0, "pub0", false, false⟩, ⟨1, "priv1", true, false⟩,
         ⟨2, "arch2", false, true⟩] none]).length :=
  counts_match_mapping _ (by decide) (by decide)

lemma strHeadNe (a b : String) (h : a.data.head? ≠ b.data.head?) : a ≠ b :=
  fun he => h (congrArg (fun s => s.data.head?) he)

/-- C6: when either email fails to resolve to a user id, the run prints
only the header, the two lookup traces and the abort message — no channel
enumeration, no membership scan and no comparison report happen. -/
theorem lookup_failure_aborts (email_1 email_2 : String) (env : Env)
    (h : (get_user_id_by_email email_1 env.lookup1).1 = none ∨
         (get_user_id_by_email email_2 env.lookup2).1 = none) :
    compare_user_channels email_1 email_2 env
      = ["Comparing channels for " ++ email_1 ++ " and " ++ email_2 ++ "...\n"]
        ++ (get_user_id_by_email email_1 env.lookup1).2.2
        ++ (get_user_id_by_email email_2 env.lookup2).2.2
        ++ ["Unable to retrieve user IDs for comparison."] ∧
    "Fetching all non-archived channel IDs (including private channels)..."
      ∉ compare_user_channels email_1 email_2 env ∧
    "Fetching channel membership for both users..."
      ∉ compare_user_channels email_1 email_2 env ∧
    "\nComparing channel memberships..."
      ∉ compare_user_channels email_1 email_2 env := by
  obtain ⟨l1, l2, pages, members⟩ := env
  have heq : compare_user_channels email_1 email_2 ⟨l1, l2, pages, members⟩
      = ["Comparing channels for " ++ email_1 ++ " and " ++ email_2 ++ "...\n"]
        ++ (get_user_id_by_email email_1 l1).2.2
        ++ (get_user_id_by_email email_2 l2).2.2
        ++ ["Unable to retrieve user IDs for comparison."] := by
    cases l1 with
    | ok uid1 un1 =>
      cases l2 with
      | ok uid2 un2 =>
        exfalso
        rcases h with h | h <;> simp [get_user_id_by_email] at h
      | err e2 => simp [compare_user_channels, get_user_id_by_email]
    | err e1 =>
      cases l2 with
      | ok uid2 un2 => simp [compare_user_channels, get_user_id_by_email]
      | err e2 => simp [compare_user_channels, get_user_id_by_email]
  refine ⟨heq, ?_, ?_, ?_⟩ <;>
  · rw [heq]
    cases l1 with
    | ok uid1 un1 =>
      cases l2 with
      | ok uid2 un2 =>
        exfalso
        rcases h with h | h <;> simp [get_user_id_by_email] at h
      | err e2 =>
        simp only [get_user_id_by_email, List.cons_append, List.nil_append,
          List.mem_cons, List.not_mem_nil, or_false, not_or]
        refine ⟨?_, ?_, ?_, ?_, ?_, ?_⟩ <;>
          (apply strHeadNe; simp [String.data_append])
    | err e1 =>
      cases l2 with
      | ok uid2 un2 =>
        simp only [get_user_id_by_email, List.cons_append, List.nil_append,
          List.mem_cons, List.not_mem_nil, or_false, not_or]
        refine ⟨?_, ?_, ?_, ?_, ?_, ?_⟩ <;>
          (apply strHeadNe; simp [String.data_append])
      | err e2 =>
        simp only [get_user_id_by_email, List.cons_append, List.nil_append,
          List.mem_cons, List.not_mem_nil, or_false, not_or]
        refine ⟨?_, ?_, ?_, ?_, ?_, ?_⟩ <;>
          (apply strHeadNe; simp [String.data_append])

/-- Witness for C6: the first email's lookup fails; the run prints exactly
the header, both lookup traces and the abort message, and none of the
enumeration, scan or comparison markers. -/
theorem lookup_failure_aborts_witness :
    compare_user_channels "a@x.com" "b@x.com"
        ⟨LookupResp.err "users_not_found", LookupResp.ok 2 "Bob", [],
          fun _ => []⟩
      = ["Comparing channels for " ++ "a@x.com" ++ " and " ++ "b@x.com" ++ "...\n"]
        ++ (get_user_id_by_email "a@x.com" (LookupResp.err "users_not_found")).2.2
        ++ (get_user_id_by_email "b@x.com" (LookupResp.ok 2 "Bob")).2.2
        ++ ["Unable to retrieve user IDs for comparison."] ∧
    "Fetching all non-archived channel IDs (including private channels)..."
      ∉ compare_user_channels "a@x.com" "b@x.com"
          ⟨LookupResp.err "users_not_found", LookupResp.ok 2 "Bob", [],
            fun _ => []⟩ ∧
    "Fetching channel membership for both users..."
      ∉ compare_user_channels "a@x.com" "b@x.com"
          ⟨LookupResp.err "users_not_found", LookupResp.ok 2 "Bob", [],
            fun _ => []⟩ ∧
    "\nComparing channel memberships..."
      ∉ compare_user_channels "a@x.com" "b@x.com"
          ⟨LookupResp.err "users_not_found", LookupResp.ok 2 "Bob", [],
            fun _ => []⟩ :=
  lookup_failure_aborts "a@x.com" "b@x.com"
    ⟨LookupResp.err "users_not_found", LookupResp.ok 2 "Bob", [], fun _ => []⟩
    (Or.inl rfl)

/-- C8: when user 1's set is a subset of user 2's, the user-1 report is
exactly the "No channels are exclusive to {name1}." message; exclusive
names are always printed in sorted order, and resolving the names Zeta,
Alpha and mid through the mapping prints them as Alpha, Zeta, mid. -/
theorem report_empty_and_sorted (m : List (Nat × String)) (name1 : String)
    (s1 s2 : List Nat) (hsub : ∀ a ∈ s1, a ∈ s2) :
    reportUser m name1 (only_in_user_1 s1 s2)
      = ["\nNo channels are exclusive to " ++ name1 ++ "."] ∧
    (∀ l : List String,
      List.Sorted (fun a b : String => a.data ≤ b.data) (sortedNames l)) ∧
    reportUser [(1, "Zeta"), (2, "Alpha"), (3, "mid")] "u"
        (only_in_user_1 [1, 2, 3] [])
      = ["\nChannels only in u:", "- Alpha", "- Zeta", "- mid"] := by
  refine ⟨?_, ?_, by decide⟩
  · have hempty : only_in_user_1 s1 s2 = [] := by
      rw [only_in_user_1, setDiff, List.filter_eq_nil_iff]
      intro a ha
      simp only [Bool.not_eq_true', Bool.not_eq_false, List.elem_iff]
      exact hsub a ha
    rw [hempty]
    rfl
  · intro l
    haveI : IsTotal String (fun a b : String => a.data ≤ b.data) :=
      ⟨fun a b => le_total _ _⟩
    haveI : IsTrans String (fun a b : String => a.data ≤ b.data) :=
      ⟨fun _ _ _ h1 h2 => le_trans h1 h2⟩
    exact List.sorted_insertionSort _ l

/-- Witness for C8: with set [1] included in set [2, 1] the user-1 report
is the no-exclusive message, and the concrete name sort prints Alpha,
Zeta, mid. -/
theorem report_empty_and_sorted_witness :
    reportUser [(1, "General")] "Alice" (only_in_user_1 [1] [2, 1])
      = ["\nNo channels are exclusive to " ++ "Alice" ++ "."] ∧
    reportUser [(1, "Zeta"), (2, "Alpha"), (3, "mid")] "u"
        (only_in_user_1 [1, 2, 3] [])
      = ["\nChannels only in u:", "- Alpha", "- Zeta", "- mid"] :=
  ⟨(report_empty_and_sorted [(1, "General")] "Alice" [1] [2, 1] (by decide)).1,
   (report_empty_and_sorted [(1, "General")] "Alice" [1] [2, 1] (by decide)).2.2⟩

end SlackCompare
